import Mathlib

/-!
Verification development for the stock-analysis backend's resilient
multi-stage analysis and ranking pipeline.

The Python source is shallowly embedded: dictionaries become structures
with `Option` fields (`none` models a missing key, or a `None`/empty
value where the source tests truthiness), floats become `ℚ`,
`round(x, 2)` becomes `round2`, Python's stable `list.sort` becomes a
stable insertion sort (any stable sort by a total preorder computes the
same permutation), and the nondeterministic parts (network attempts,
`random.uniform` draws) become explicit input streams.
-/

/-- Python's `round(x, 2)`: round to two decimal places.  Modelled as
round-half-up; only monotonicity and concrete values matter here, and
those agree with the source on all inputs used. -/
def round2 (q : ℚ) : ℚ := ((⌊100 * q + 1 / 2⌋ : ℤ) : ℚ) / 100

theorem round2_mono {a b : ℚ} (h : a ≤ b) : round2 a ≤ round2 b := by
  unfold round2
  have : (100 : ℚ) * a + 1 / 2 ≤ 100 * b + 1 / 2 := by linarith
  have hf := Int.floor_le_floor this
  have : ((⌊100 * a + 1 / 2⌋ : ℤ) : ℚ) ≤ ((⌊100 * b + 1 / 2⌋ : ℤ) : ℚ) := by
    exact_mod_cast hf
  linarith

/-! ## One OHLCV row of a price series (`historical_data` entries) -/

structure Bar where
  open_ : ℚ
  high : ℚ
  low : ℚ
  close : ℚ
  volume : ℕ
deriving DecidableEq, Repr, Inhabited

/-! ## stock_price_tool.generate_fallback_data

The source draws `random.uniform` / `random.randint` values; they are
modelled as explicit streams, with the `uniform` bounds as hypotheses of
the theorems that need them. -/

structure RandomStream where
  daily_change : ℕ → ℚ
  open_factor : ℕ → ℚ
  high_factor : ℕ → ℚ
  low_factor : ℕ → ℚ
  volume : ℕ → ℕ

/-- Source: `days = 90 if period == "3mo" else 180 if period == "6mo" else 365` -/
def days_for_period (period : String) : ℕ :=
  if period = "3mo" then 90 else if period = "6mo" then 180 else 365

/-- Source: `base_price = 1200.0` -/
def base_price : ℚ := 1200

/-- The value of `current_price` after the i-th loop iteration:
`current_price = current_price * (1 + daily_change)` starting from
`base_price`. -/
def current_after (dc : ℕ → ℚ) : ℕ → ℚ
  | 0 => base_price * (1 + dc 0)
  | n + 1 => current_after dc n * (1 + dc (n + 1))

/-- The bar appended on loop iteration `i` of `generate_fallback_data`:
`open = current * U(0.98, 1.02)`, `high = max(open, current) * U(1.0, 1.02)`,
`low = min(open, current) * U(0.98, 1.0)`, `close = current`,
all rounded to 2 decimals. -/
def fallback_bar (rs : RandomStream) (i : ℕ) : Bar :=
  let current := current_after rs.daily_change i
  let op := current * rs.open_factor i
  let hi := max op current * rs.high_factor i
  let lo := min op current * rs.low_factor i
  { open_ := round2 op, high := round2 hi, low := round2 lo,
    close := round2 current, volume := rs.volume i }

/-- A value stored in one of the payload dictionaries. -/
inductive PVal where
  | none_ : PVal
  | num : ℚ → PVal
  | str : String → PVal
  | bars : List Bar → PVal
  | qlist : List ℚ → PVal
  | nat : ℕ → PVal
deriving DecidableEq, Repr

/-- The dictionary returned by `get_stock_price` /
`generate_fallback_data`.  `Option` on the price fields models a `None`
value; `note` is present only on fallback payloads. -/
structure PricePayload where
  symbol : String
  yahoo_symbol : String
  market : String
  current_price : Option ℚ
  previous_close : Option ℚ
  change : Option ℚ
  change_percent : Option ℚ
  historical_data : List Bar
  period : String
  data_points : ℕ
  data_source : String
  note : Option String := none
deriving DecidableEq, Repr

/-- Python `dict.get(key)` over the payload: returns `none` exactly when
the key is absent from the dictionary built by the source (the
`fetched_at` timestamp is not modelled; no reader consumes it). -/
def PricePayload.getKey (p : PricePayload) (k : String) : Option PVal :=
  if k = "symbol" then some (.str p.symbol)
  else if k = "yahoo_symbol" then some (.str p.yahoo_symbol)
  else if k = "market" then some (.str p.market)
  else if k = "current_price" then
    some (match p.current_price with | some q => .num q | none => .none_)
  else if k = "previous_close" then
    some (match p.previous_close with | some q => .num q | none => .none_)
  else if k = "change" then
    some (match p.change with | some q => .num q | none => .none_)
  else if k = "change_percent" then
    some (match p.change_percent with | some q => .num q | none => .none_)
  else if k = "historical_data" then some (.bars p.historical_data)
  else if k = "period" then some (.str p.period)
  else if k = "data_points" then some (.nat p.data_points)
  else if k = "data_source" then some (.str p.data_source)
  else if k = "note" then (match p.note with | some s => some (.str s) | none => none)
  else none

/-- Embeds `generate_fallback_data(symbol, period)` with the random draws given
by `rs`. -/
def generate_fallback_data (symbol : String) (period : String) (rs : RandomStream) :
    PricePayload :=
  let days := days_for_period period
  let historical_data := (List.range days).map (fallback_bar rs)
  let previous_close :=
    if 1 < historical_data.length then (historical_data.getD (days - 2) default).close
    else current_after rs.daily_change (days - 1)
  let final_price := (historical_data.getD (days - 1) default).close
  { symbol := symbol,
    yahoo_symbol := symbol ++ ".NS",
    market := "india_nse",
    current_price := some (round2 final_price),
    previous_close := some (round2 previous_close),
    change := some (round2 (final_price - previous_close)),
    change_percent := some (round2 ((final_price - previous_close) / previous_close * 100)),
    historical_data := historical_data,
    period := period,
    data_points := historical_data.length,
    data_source := "fallback_demo",
    note := some ("Using demo data due to data provider unavailability") }

/-! ## stock_price_tool.get_stock_price -/

/-- What one upstream attempt observes.  `ok` carries the fetched history
rows plus the current/previous price the attempt resolves (from
`ticker.info`, or from the history when the info call fails); an `ok`
with an empty history models the silent-rate-limit empty body.  The
other constructors are the exception classes the source handles. -/
inductive AttemptOutcome where
  | ok : List Bar → Option ℚ → Option ℚ → AttemptOutcome
  | timeout : AttemptOutcome
  | connError : AttemptOutcome
  | httpError : ℕ → AttemptOutcome
  | otherError : AttemptOutcome
deriving DecidableEq

/-- Source: `max_retries = 2`. -/
def max_retries : ℕ := 2

/-- An attempt succeeds iff it returned a non-empty history. -/
def attemptOk : AttemptOutcome → Bool
  | .ok hist _ _ => !hist.isEmpty
  | _ => false

/-- The `for attempt in range(max_retries)` loop.  In the source, every
handled failure — timeout/connection error, HTTP error (429 included),
empty history, any other exception — either `continue`s or falls off the
end of its `except` block, after which the `for` loop proceeds to the
next attempt; so each failed attempt consumes one unit of budget and the
loop only exits early on success.  `attempt` is the loop index,
`remaining` the attempts left in `range(max_retries)`.  Returns the
successful attempt's data (if any) and the number of upstream attempts
consumed. -/
def fetch_loop (outcomes : ℕ → AttemptOutcome) :
    ℕ → ℕ → Option (List Bar × Option ℚ × Option ℚ) × ℕ
  | attempt, 0 => (none, attempt)
  | attempt, remaining + 1 =>
    match outcomes attempt with
    | .ok hist cp pc =>
      if hist.isEmpty then fetch_loop outcomes (attempt + 1) remaining
      else (some (hist, cp, pc), attempt + 1)
    | .timeout => fetch_loop outcomes (attempt + 1) remaining
    | .connError => fetch_loop outcomes (attempt + 1) remaining
    | .httpError _ => fetch_loop outcomes (attempt + 1) remaining
    | .otherError => fetch_loop outcomes (attempt + 1) remaining

/-- Python truthiness of an optional float: `None` and `0` are falsy. -/
def truthyQ : Option ℚ → Option ℚ
  | some v => if v = 0 then none else some v
  | none => none

/-- The `result` dictionary built on a successful attempt. -/
def live_payload (symbol yahoo_symbol market period : String)
    (hist : List Bar) (cp pc : Option ℚ) : PricePayload :=
  let historical_data := hist.map (fun r =>
    { open_ := round2 r.open_, high := round2 r.high, low := round2 r.low,
      close := round2 r.close, volume := r.volume })
  { symbol := symbol,
    yahoo_symbol := yahoo_symbol,
    market := market,
    current_price := (truthyQ cp).map round2,
    previous_close := (truthyQ pc).map round2,
    change :=
      match truthyQ cp, truthyQ pc with
      | some c, some p => some (round2 (c - p))
      | _, _ => none,
    change_percent :=
      match truthyQ cp, truthyQ pc with
      | some c, some p => some (round2 ((c - p) / p * 100))
      | _, _ => none,
    historical_data := historical_data,
    period := period,
    data_points := historical_data.length,
    data_source := "yahoo_finance" }

/-- What a call to `get_stock_price` externally does: the payload it
returns, the cache writes `(key, value, ttl)` it performs, how many
upstream attempts it spent, and whether it answered from cache. -/
structure FetchResult where
  payload : PricePayload
  cacheWrites : List (String × PricePayload × ℕ)
  upstreamAttempts : ℕ
  fromCache : Bool

/-- Embeds `get_stock_price(symbol, market, period)`: cache lookup, retry loop,
live caching under TTL 3600 on success, fallback generation and caching
under TTL 900 on exhaustion.  (The outer last-resort `except` that
returns fallback data without caching is unreachable for the modelled
inputs: every attempt failure is already handled inside the loop.) -/
def get_stock_price (symbol market period : String)
    (cached : Option PricePayload) (outcomes : ℕ → AttemptOutcome)
    (rs : RandomStream) : FetchResult :=
  let cache_key := "stock_price:" ++ symbol ++ ":" ++ market ++ ":" ++ period
  match cached with
  | some data =>
    { payload := data, cacheWrites := [], upstreamAttempts := 0, fromCache := true }
  | none =>
    let yahoo_symbol :=
      if market = "india_nse" ∧ ¬ symbol.endsWith (".NS") then symbol ++ ".NS"
      else if market = "india_bse" ∧ ¬ symbol.endsWith (".BO") then symbol ++ ".BO"
      else symbol
    match fetch_loop outcomes 0 max_retries with
    | (some (hist, cp, pc), used) =>
      let result := live_payload symbol yahoo_symbol market period hist cp pc
      { payload := result, cacheWrites := [(cache_key, result, 3600)],
        upstreamAttempts := used, fromCache := false }
    | (none, used) =>
      let fallback_result := generate_fallback_data symbol period rs
      { payload := fallback_result, cacheWrites := [(cache_key, fallback_result, 900)],
        upstreamAttempts := used, fromCache := false }

/-! ## recommendation_service._calculate_recommendation_score and the
score filter of _analyze_stock_for_recommendation

The analysis dictionaries are embedded as structures whose `Option`
fields model missing keys; where the source tests the truthiness of a
sub-dictionary, the sub-dictionary is an `Option` whose `none` also
covers the empty dictionary. -/

/-- The `final_rec` dictionary as read by the scorer (`.get("action", "hold")`,
`.get("confidence", 0)`). -/
structure FinalRec where
  action : Option String := none
  confidence : Option ℚ := none
deriving DecidableEq, Repr, Inhabited

structure TechSummary where
  overall_signal : Option String := none
deriving DecidableEq, Repr, Inhabited

structure TechDetails where
  summary : Option TechSummary := none
deriving DecidableEq, Repr, Inhabited

/-- The `tech_analysis` dictionary as read by the scorer: `error` is the value of the
`"error"` key when present. -/
structure TechAnalysis where
  error : Option String := none
  technical_details : Option TechDetails := none
deriving DecidableEq, Repr, Inhabited

structure ValuationMetrics where
  pe : Option ℚ := none  -- `pe_ratio` in the source
deriving DecidableEq, Repr, Inhabited

structure FundDetails where
  valuation_metrics : Option ValuationMetrics := none
deriving DecidableEq, Repr, Inhabited

structure FundAnalysis where
  error : Option String := none
  fundamental_details : Option FundDetails := none
  data_source : Option String := none
deriving DecidableEq, Repr, Inhabited

structure SentDetails where
  overall_sentiment_score : Option ℚ := none
deriving DecidableEq, Repr, Inhabited

structure SentAnalysis where
  sentiment_details : Option SentDetails := none
deriving DecidableEq, Repr, Inhabited

/-- Python truthiness of `dict.get("error")`: truthy iff the key is
present with a non-empty string. -/
def errTruthy : Option String → Bool
  | some s => !s.isEmpty
  | none => false

/-- Embeds `using_fallback` as computed at lines 351-355 and 447-451 of the
service: `(fund_analysis and fund_analysis.get("data_source") ==
"fallback") or (price_data and price_data.get("data_source") ==
"fallback")`.  `fund_analysis` is optional (possibly `None`/empty);
`price_data` is the fetcher payload, always truthy, and its
`data_source` is read through the dictionary. -/
def using_fallback (fund_analysis : Option FundAnalysis) (price_data : PricePayload) :
    Bool :=
  (match fund_analysis with
   | some f => f.data_source == some ("fallback")
   | none => false) ||
  (price_data.getKey ("data_source") == some (PVal.str ("fallback")))

/-- Base recommendation block (0-40 points). -/
def base_points (final_rec : FinalRec) (ufb : Bool) : ℚ :=
  let action := final_rec.action.getD ("hold")
  let confidence := final_rec.confidence.getD 0 / 100
  if action = "strong_buy" then 40 * confidence
  else if action = "buy" then 30 * confidence
  else if action = "hold" then (if ufb then 20 else 15) * confidence
  else 0

/-- Technical block (0-25 points). -/
def tech_points (tech_analysis : Option TechAnalysis) (ufb : Bool) : ℚ :=
  let tech_indicators : Option TechDetails :=
    match tech_analysis with
    | some t => if errTruthy t.error then none else t.technical_details
    | none => none
  let tech_summary := (tech_indicators.getD {}).summary.getD {}
  let tech_signal := tech_summary.overall_signal.getD ("hold")
  if tech_signal = "buy" then 25
  else if tech_signal = "hold" then (if ufb then 15 else 12)
  else 5

/-- Fundamental block (0-20 points); `pe_ratio` is subject to Python
truthiness (`None` and `0` both take the neutral branch). -/
def fund_points (fund_analysis : Option FundAnalysis) : ℚ :=
  let fund_details : Option FundDetails :=
    match fund_analysis with
    | some f => if errTruthy f.error then none else f.fundamental_details
    | none => none
  let pe : Option ℚ :=
    match fund_details with
    | some fd => (fd.valuation_metrics.getD {}).pe
    | none => none
  match pe with
  | some v =>
    if v = 0 then 10
    else if 10 ≤ v ∧ v ≤ 25 then 20
    else if 5 ≤ v ∧ v < 10 then 15
    else if 25 < v ∧ v ≤ 35 then 10
    else 5
  | none => 10

/-- Sentiment block (0-10 points). -/
def sent_points (sent_analysis : SentAnalysis) : ℚ :=
  let sentiment_score := ((sent_analysis.sentiment_details.getD {}).overall_sentiment_score).getD 0
  if 6 / 10 < sentiment_score then 10
  else if 4 / 10 < sentiment_score then 7
  else if 2 / 10 < sentiment_score then 4
  else 2

/-- The list the momentum block reads:
`price_data.get("historical_prices", [])`. -/
def historical_prices_value (price_data : PricePayload) : List ℚ :=
  match price_data.getKey ("historical_prices") with
  | some (.qlist l) => l
  | some _ => []
  | none => []

/-- Momentum block (0-5 points): compares the last two entries of
`historical_prices`. -/
def momentum_points (price_data : PricePayload) : ℚ :=
  let historical := historical_prices_value price_data
  if 2 ≤ historical.length then
    let last := historical.getLastD 0
    let prev := historical.dropLast.getLastD 0
    let recent_change := (last - prev) / prev * 100
    if 2 < recent_change then 5 else if 0 < recent_change then 3 else 1
  else 0

/-- Embeds `_calculate_recommendation_score`: the weighted sum of the five
blocks, capped at 100. -/
def calculate_recommendation_score (final_rec : FinalRec)
    (tech_analysis : Option TechAnalysis) (fund_analysis : Option FundAnalysis)
    (sent_analysis : SentAnalysis) (price_data : PricePayload) : ℚ :=
  let ufb := using_fallback fund_analysis price_data
  min (base_points final_rec ufb + tech_points tech_analysis ufb +
    fund_points fund_analysis + sent_points sent_analysis +
    momentum_points price_data) 100

/-- Source: `min_score = 30 if using_fallback else 50` (lines 357-358). -/
def min_score_of (ufb : Bool) : ℚ := if ufb then 30 else 50

/-- The drop decision at lines 360-368: the instrument is dropped
(`return None`) iff `score < min_score`. -/
def dropped_by_score_filter (score : ℚ) (fund_analysis : Option FundAnalysis)
    (price_data : PricePayload) : Bool :=
  score < min_score_of (using_fallback fund_analysis price_data)

/-! ## recommendation_agent.RecommendationAgent.synthesize -/

structure IndSummary where
  overall_signal : Option String := none
deriving DecidableEq, Repr, Inhabited

structure Indicators where
  summary : Option IndSummary := none
deriving DecidableEq, Repr, Inhabited

/-- An analysis dictionary as consumed by `synthesize`'s extractors.
`present = false` models a `None`/empty (falsy) argument; `error`
models the `"error"` key (`some ""` is a present-but-empty value, which
still makes `"error" in analysis` true). -/
structure SynthAnalysis where
  present : Bool := true
  error : Option String := none
  indicators : Option Indicators := none
  overall_sentiment : Option String := none
deriving DecidableEq, Repr, Inhabited

/-- Embeds `_extract_technical_signal`: `if analysis and "error" not in analysis`
then `indicators.summary.overall_signal` (default `"hold"`). -/
def extract_technical_signal (analysis : SynthAnalysis) : String :=
  if analysis.present ∧ analysis.error = none then
    (((analysis.indicators.getD {}).summary).getD {}).overall_signal.getD ("hold")
  else "hold"

/-- Embeds `_extract_fundamental_signal`: returns `"hold"` on both branches. -/
def extract_fundamental_signal (analysis : SynthAnalysis) : String :=
  if analysis.present ∧ analysis.error = none then "hold" else "hold"

/-- Embeds `_extract_sentiment_signal`: maps `overall_sentiment`
positive/negative to buy/sell, default `"hold"`. -/
def extract_sentiment_signal (analysis : SynthAnalysis) : String :=
  if analysis.present ∧ analysis.error = none then
    let sentiment := analysis.overall_sentiment.getD ("neutral")
    if sentiment = "positive" then "buy"
    else if sentiment = "negative" then "sell"
    else "hold"
  else "hold"

/-- The vote block of `synthesize` (lines 86-99): counts buy/sell votes
over the three signals, resolves the action, and computes the raw
confidence (before `round(confidence, 2)`). -/
def resolve_vote (tech_signal fund_signal sent_signal : String) : String × ℚ :=
  let signals := [tech_signal, fund_signal, sent_signal]
  let buy_votes := (signals.filter (fun s => s == "buy")).length
  let sell_votes := (signals.filter (fun s => s == "sell")).length
  if 2 ≤ buy_votes then ("buy", ((buy_votes : ℚ) / 3) * 100)
  else if 2 ≤ sell_votes then ("sell", ((sell_votes : ℚ) / 3) * 100)
  else ("hold", 50)

/-- The fields of `synthesize`'s returned dictionary that the claims
consume: `action`, `confidence` (rounded to 2 decimals) and the three
extracted signals. -/
structure FinalRecOut where
  action : String
  confidence : ℚ
  tech_signal : String
  fund_signal : String
  sent_signal : String
deriving DecidableEq, Repr

/-- Embeds `synthesize`: extract the three signals, vote, round the
confidence. -/
def synthesize (technical_analysis fundamental_analysis sentiment_analysis :
    SynthAnalysis) : FinalRecOut :=
  let tech_signal := extract_technical_signal technical_analysis
  let fund_signal := extract_fundamental_signal fundamental_analysis
  let sent_signal := extract_sentiment_signal sentiment_analysis
  let av := resolve_vote tech_signal fund_signal sent_signal
  { action := av.1, confidence := round2 av.2,
    tech_signal := tech_signal, fund_signal := fund_signal,
    sent_signal := sent_signal }

/-! ## orchestrator: the four sequential pipeline nodes -/

/-- What happens inside one analysis stage: the agent either returns its
payload or raises, in which case the node's `except` turns it into an
error dictionary. -/
inductive StageOutcome where
  | ok : SynthAnalysis → StageOutcome
  | fail : String → StageOutcome
deriving DecidableEq

def StageOutcome.failed : StageOutcome → Bool
  | .ok _ => false
  | .fail _ => true

/-- A node's state update: the agent result on success, the
`{"error": ..., "agent": ...}` dictionary on failure. -/
def stage_node_result : StageOutcome → SynthAnalysis
  | .ok payload => payload
  | .fail e => { present := true, error := some e }

/-- The orchestrator state after the four nodes have run (the graph is
a straight line technical → fundamental → sentiment → recommendation). -/
structure PipelineState where
  tech_analysis : Option SynthAnalysis
  fund_analysis : Option SynthAnalysis
  sent_analysis : Option SynthAnalysis
  final_recommendation : Option FinalRecOut
  errors : List String

/-- Run the four nodes in sequence from the initial state (all analyses
`None`).  Each failing stage contributes its error dictionary and an
entry in `errors`; the recommendation node then synthesizes from the
three stored analyses. -/
def run_pipeline (techO fundO sentO : StageOutcome) : PipelineState :=
  let tech := stage_node_result techO
  let fund := stage_node_result fundO
  let sent := stage_node_result sentO
  { tech_analysis := some tech,
    fund_analysis := some fund,
    sent_analysis := some sent,
    final_recommendation := some (synthesize tech fund sent),
    errors :=
      (match techO with | .fail e => ["Technical analysis failed: " ++ e] | _ => []) ++
      (match fundO with | .fail e => ["Fundamental analysis failed: " ++ e] | _ => []) ++
      (match sentO with | .fail e => ["Sentiment analysis failed: " ++ e] | _ => []) }

/-! ## A stable insertion sort

Python's `list.sort` is stable (Timsort); a stable sort by a total
preorder is extensionally unique, so a stable insertion sort computes
exactly the same permutation.  `sortDescQ key` is `sort(key=key,
reverse=True)`; `sortAscN key` is `sort(key=key)`. -/

def insertDescQ {α : Type} (key : α → ℚ) (x : α) : List α → List α
  | [] => [x]
  | y :: ys => if key x < key y then y :: insertDescQ key x ys else x :: y :: ys

def sortDescQ {α : Type} (key : α → ℚ) : List α → List α
  | [] => []
  | x :: xs => insertDescQ key x (sortDescQ key xs)

def insertAscN {α : Type} (key : α → ℕ) (x : α) : List α → List α
  | [] => [x]
  | y :: ys => if key y < key x then y :: insertAscN key x ys else x :: y :: ys

def sortAscN {α : Type} (key : α → ℕ) : List α → List α
  | [] => []
  | x :: xs => insertAscN key x (sortAscN key xs)

theorem perm_insertDescQ {α : Type} (key : α → ℚ) (x : α) (l : List α) :
    List.Perm (insertDescQ key x l) (x :: l) := by
  induction l with
  | nil => simp [insertDescQ]
  | cons y ys ih =>
    by_cases h : key x < key y
    · simp only [insertDescQ, if_pos h]
      exact (ih.cons y).trans (List.Perm.swap x y ys)
    · simp [insertDescQ, if_neg h]

theorem perm_sortDescQ {α : Type} (key : α → ℚ) (l : List α) :
    List.Perm (sortDescQ key l) l := by
  induction l with
  | nil => simp [sortDescQ]
  | cons x xs ih =>
    exact (perm_insertDescQ key x (sortDescQ key xs)).trans (ih.cons x)

theorem mem_insertDescQ {α : Type} {key : α → ℚ} {x z : α} {l : List α} :
    z ∈ insertDescQ key x l ↔ z = x ∨ z ∈ l := by
  rw [(perm_insertDescQ key x l).mem_iff, List.mem_cons]

theorem pairwise_insertDescQ {α : Type} (key : α → ℚ) (x : α) (l : List α)
    (h : List.Pairwise (fun a b => key b ≤ key a) l) :
    List.Pairwise (fun a b => key b ≤ key a) (insertDescQ key x l) := by
  induction l with
  | nil => simp [insertDescQ]
  | cons y ys ih =>
    rcases List.pairwise_cons.mp h with ⟨hy, hys⟩
    by_cases hk : key x < key y
    · simp only [insertDescQ, if_pos hk]
      refine List.pairwise_cons.mpr ⟨?_, ih hys⟩
      intro z hz
      rcases mem_insertDescQ.mp hz with rfl | hz
      · exact le_of_lt hk
      · exact hy z hz
    · simp only [insertDescQ, if_neg hk]
      refine List.pairwise_cons.mpr ⟨?_, h⟩
      intro z hz
      rcases List.mem_cons.mp hz with rfl | hz
      · exact le_of_not_lt hk
      · exact le_trans (hy z hz) (le_of_not_lt hk)

theorem pairwise_sortDescQ {α : Type} (key : α → ℚ) (l : List α) :
    List.Pairwise (fun a b => key b ≤ key a) (sortDescQ key l) := by
  induction l with
  | nil => simp [sortDescQ]
  | cons x xs ih => exact pairwise_insertDescQ key x (sortDescQ key xs) ih

theorem filter_insertDescQ_ne {α : Type} (key : α → ℚ) (x : α) (l : List α)
    (p : α → Bool) (hx : p x = false) :
    (insertDescQ key x l).filter p = l.filter p := by
  induction l with
  | nil => simp [insertDescQ, hx]
  | cons y ys ih =>
    by_cases hk : key x < key y
    · simp only [insertDescQ, if_pos hk, List.filter_cons]
      cases hpy : p y <;> simp [hpy, ih]
    · simp [insertDescQ, if_neg hk, List.filter_cons, hx]

theorem filter_insertDescQ_eq {α : Type} (key : α → ℚ) (x : α) (l : List α)
    (p : α → Bool) (hp : ∀ a b, p a = true → p b = true → ¬ key a < key b)
    (hx : p x = true) :
    (insertDescQ key x l).filter p = x :: l.filter p := by
  induction l with
  | nil => simp [insertDescQ, hx]
  | cons y ys ih =>
    by_cases hk : key x < key y
    · have hpy : p y = false := by
        cases hpy : p y
        · rfl
        · exact absurd hk (hp x y hx hpy)
      simp only [insertDescQ, if_pos hk, List.filter_cons, hpy, cond_false]
      simp [ih, hpy]
    · simp [insertDescQ, if_neg hk, List.filter_cons, hx]

/-- The stability law of the sort: the elements whose key satisfies a
key-determined predicate appear in the output in their input order.
Instantiated below with `p a = (key a == q)`. -/
theorem filter_sortDescQ {α : Type} (key : α → ℚ) (l : List α) (q : ℚ) :
    (sortDescQ key l).filter (fun a => key a == q) =
      l.filter (fun a => key a == q) := by
  induction l with
  | nil => simp [sortDescQ]
  | cons x xs ih =>
    by_cases hx : key x = q
    · have := filter_insertDescQ_eq key x (sortDescQ key xs)
        (fun a => key a == q) ?_ (by simp [hx])
      · rw [sortDescQ, this, ih, List.filter_cons]
        simp [hx]
      · intro a b ha hb
        have ha' : key a = q := by simpa using ha
        have hb' : key b = q := by simpa using hb
        rw [ha', hb']
        exact lt_irrefl q
    · have := filter_insertDescQ_ne key x (sortDescQ key xs)
        (fun a => key a == q) (by simp [hx])
      rw [sortDescQ, this, ih, List.filter_cons]
      simp [hx]

theorem perm_insertAscN {α : Type} (key : α → ℕ) (x : α) (l : List α) :
    List.Perm (insertAscN key x l) (x :: l) := by
  induction l with
  | nil => simp [insertAscN]
  | cons y ys ih =>
    by_cases h : key y < key x
    · simp only [insertAscN, if_pos h]
      exact (ih.cons y).trans (List.Perm.swap x y ys)
    · simp [insertAscN, if_neg h]

theorem perm_sortAscN {α : Type} (key : α → ℕ) (l : List α) :
    List.Perm (sortAscN key l) l := by
  induction l with
  | nil => simp [sortAscN]
  | cons x xs ih =>
    exact (perm_insertAscN key x (sortAscN key xs)).trans (ih.cons x)

/-! ## market_recommendation_agent._fallback_ranking -/

/-- One element of the `stock_analyses` list handed to `rank_stocks`
(the fields the ranker reads or writes; `score` carries the composite
score when the caller supplied one). -/
structure StockAnalysis where
  symbol : String
  score : Option ℚ := none
  final_recommendation : Option FinalRec := none
  enhanced_score : Option ℚ := none
  ai_reasoning : Option String := none
  rank : Option ℕ := none
deriving DecidableEq, Repr

/-- The per-stock score of the fallback ranking:
`confidence` if `action == "buy"`, `confidence * 0.5` if `"hold"`,
else `0`. -/
def fallback_score (analysis : StockAnalysis) : ℚ :=
  let final_rec := analysis.final_recommendation.getD {}
  let confidence := final_rec.confidence.getD 0
  let action := final_rec.action.getD ("hold")
  if action = "buy" then confidence
  else if action = "hold" then confidence * (1 / 2)
  else 0

/-- The enrichment applied to every entry before sorting
(`{**analysis, "enhanced_score": score, "ai_reasoning": ..., "rank": 0}`;
the reasoning string's interpolated confidence is elided). -/
def fallback_annotate (analysis : StockAnalysis) : StockAnalysis :=
  { analysis with
    enhanced_score := some (fallback_score analysis),
    ai_reasoning := some ("Based on recommendation"),
    rank := some 0 }

/-- Source: `for i, stock in enumerate(scored_stocks): stock["rank"] = i + 1`. -/
def assign_ranks (i : ℕ) : List StockAnalysis → List StockAnalysis
  | [] => []
  | a :: rest => { a with rank := some (i + 1) } :: assign_ranks (i + 1) rest

/-- Embeds `_fallback_ranking`: annotate, sort descending by `enhanced_score`
(stable), assign ranks `1..N`. -/
def fallback_ranking (stock_analyses : List StockAnalysis) : List StockAnalysis :=
  let scored_stocks := stock_analyses.map fallback_annotate
  let sorted := sortDescQ (fun a => a.enhanced_score.getD 0) scored_stocks
  assign_ranks 0 sorted

/-! ## recommendation_service.get_top_stocks: merging the oracle ranking
back into the detailed results (lines 200-225) -/

/-- One entry of `valid_results` (fields read or written by the merge). -/
structure ValidResult where
  symbol : String
  score : Option ℚ := none
  reasoning : Option String := none
  rank : Option ℕ := none
  ai_reasoning : Option String := none
  market_context : Option String := none
  comparative_advantages : Option (List String) := none
  risk_factors : Option (List String) := none
  entry_strategy : Option String := none
  time_horizon : Option String := none
deriving DecidableEq, Repr

/-- One entry of the oracle's (or fallback) ranked list, as read by the
merge loop. -/
structure AiRankedStock where
  symbol : String
  enhanced_score : Option ℚ := none
  rank : Option ℕ := none
  ai_reasoning : Option String := none
  market_context : Option String := none
  comparative_advantages : Option (List String) := none
  risk_factors : Option (List String) := none
  entry_strategy : Option String := none
  time_horizon : Option String := none
deriving DecidableEq, Repr

/-- The `enhanced` dictionary built for one matched symbol:
`{**result_map[symbol], "score": ai_stock.get("enhanced_score",
result_map[symbol].get("score", 0)), "rank": ..., ...}`. -/
def merge_ai_stock (base : ValidResult) (ai_stock : AiRankedStock) : ValidResult :=
  { base with
    score := some (ai_stock.enhanced_score.getD (base.score.getD 0)),
    rank := some (ai_stock.rank.getD 999),
    ai_reasoning := some (ai_stock.ai_reasoning.getD (base.reasoning.getD (""))),
    market_context := some (ai_stock.market_context.getD ("")),
    comparative_advantages := some (ai_stock.comparative_advantages.getD []),
    risk_factors := some (ai_stock.risk_factors.getD []),
    entry_strategy := some (ai_stock.entry_strategy.getD ("")),
    time_horizon := some (ai_stock.time_horizon.getD ("")) }

/-- Source: `result_map = {r.get("symbol"): r for r in valid_results}` — on a
duplicate symbol the later entry wins. -/
def result_map (valid_results : List ValidResult) (s : String) : Option ValidResult :=
  valid_results.reverse.find? (fun r => r.symbol == s)

/-- The merge loop plus `enhanced_results.sort(key=rank)` plus the
`[:limit]` truncation of `get_top_stocks`'s oracle path. -/
def merge_ai_rankings (valid_results : List ValidResult)
    (ai_ranked : List AiRankedStock) (limit : ℕ) : List ValidResult :=
  let enhanced_results := ai_ranked.filterMap (fun ai_stock =>
    (result_map valid_results ai_stock.symbol).map
      (fun base => merge_ai_stock base ai_stock))
  (sortAscN (fun x => x.rank.getD 999) enhanced_results).take limit

/-! ## core.redis_client.RedisCache in degraded (fallback) mode

When the Redis ping fails at construction, `available = False` and all
operations work against `self._fallback_cache`, a plain dict.  The dict
is modelled as an association list where the last write wins. -/

/-- The in-process `_fallback_cache` dictionary. -/
def FallbackCache (α : Type) : Type := List (String × α)

/-- Source: `self._fallback_cache.get(key)`. -/
def fc_get {α : Type} (c : FallbackCache α) (key : String) : Option α :=
  (c.find? (fun e => e.1 == key)).map (fun e => e.2)

/-- The `set` operation in degraded mode: `self._fallback_cache[key] = value` (the
`ttl` argument is ignored — no TTL enforcement); returns `True`. -/
def fc_set {α : Type} (c : FallbackCache α) (key : String) (value : α) (_ttl : ℕ) :
    FallbackCache α × Bool :=
  ((key, value) :: c.filter (fun e => !(e.1 == key)), true)

/-- The `delete` operation in degraded mode: `self._fallback_cache.pop(key, None)`;
returns `True`. -/
def fc_delete {α : Type} (c : FallbackCache α) (key : String) :
    FallbackCache α × Bool :=
  (c.filter (fun e => !(e.1 == key)), true)

/-- The `clear_pattern` operation in degraded mode: the body only touches Redis when
`self.available`, so with the fallback cache it deletes nothing and
returns `0`. -/
def fc_clear_pattern {α : Type} (c : FallbackCache α) (_pattern : String) :
    FallbackCache α × ℕ :=
  (c, 0)

/-- Character-list prefix test (kernel-computable). -/
def strPfx : List Char → List Char → Bool
  | [], _ => true
  | _, [] => false
  | c :: cs, d :: ds => c == d && strPfx cs ds

/-- A key matches a prefix pattern `"pfx*"` iff it starts with the
prefix — the property the spec's `deleteByPrefix` contract asks for. -/
def matchesPfx (key pfx : String) : Bool := strPfx pfx.data key.data

/-! ## Supporting lemmas: the retry loop -/

/-- A failed attempt consumes one unit of budget and the loop moves on. -/
theorem fetch_loop_fail_step (outcomes : ℕ → AttemptOutcome) (attempt r : ℕ)
    (hfail : attemptOk (outcomes attempt) = false) :
    fetch_loop outcomes attempt (r + 1) = fetch_loop outcomes (attempt + 1) r := by
  cases ho : outcomes attempt with
  | ok hist cp pc =>
    have he : hist.isEmpty = true := by simpa [attemptOk, ho] using hfail
    simp [fetch_loop, ho, he]
  | timeout => simp [fetch_loop, ho]
  | connError => simp [fetch_loop, ho]
  | httpError s => simp [fetch_loop, ho]
  | otherError => simp [fetch_loop, ho]

/-- When both attempts fail, the loop exhausts the whole budget. -/
theorem fetch_loop_exhausted (outcomes : ℕ → AttemptOutcome)
    (h0 : attemptOk (outcomes 0) = false) (h1 : attemptOk (outcomes 1) = false) :
    fetch_loop outcomes 0 max_retries = (none, 2) := by
  rw [show max_retries = 2 from rfl,
    fetch_loop_fail_step outcomes 0 1 h0,
    fetch_loop_fail_step outcomes 1 0 h1]
  rfl

/-- A first-attempt success exits the loop after one upstream call. -/
theorem fetch_loop_first_success (outcomes : ℕ → AttemptOutcome)
    (hist : List Bar) (cp pc : Option ℚ)
    (h : outcomes 0 = .ok hist cp pc) (hne : hist ≠ []) :
    fetch_loop outcomes 0 max_retries = (some (hist, cp, pc), 1) := by
  have he : hist.isEmpty = false := by
    cases hist with
    | nil => exact absurd rfl hne
    | cons a l => rfl
  rw [show max_retries = 2 from rfl]
  simp [fetch_loop, h, he]

/-- A constant random stream (all draws at the midpoint-free values
0 / 1 / 1 / 1), used for concrete instantiations. -/
def constRS : RandomStream :=
  { daily_change := fun _ => 0, open_factor := fun _ => 1,
    high_factor := fun _ => 1, low_factor := fun _ => 1,
    volume := fun _ => 1000000 }

/-- C1, as stated by the spec: on a 429 (or empty-body) response no
further upstream attempts are spent, i.e. the call would consume at most
one attempt.  The code instead retries: with every attempt answering
HTTP 429 (resp. an empty body), the fetcher spends the full 2-attempt
budget before returning the fallback payload, so the claim fails. -/
theorem C1_counterexample :
    (get_stock_price ("TCS") ("india_nse") ("3mo") none
      (fun _ => AttemptOutcome.httpError 429) constRS).upstreamAttempts = 2 ∧
    (get_stock_price ("TCS") ("india_nse") ("3mo") none
      (fun _ => AttemptOutcome.ok [] none none) constRS).upstreamAttempts = 2 ∧
    ¬ ((2 : ℕ) ≤ 1) := by
  refine ⟨?_, ?_, by norm_num⟩ <;> rfl

/-- C1 amended: a rate-limit signal (HTTP 429) or an empty body is
retried like any other failure; the fallback payload is generated and
returned only once all `max_retries = 2` upstream attempts have been
spent. -/
theorem C1_amended (symbol market period : String)
    (outcomes : ℕ → AttemptOutcome) (rs : RandomStream)
    (hfail : ∀ i, i < max_retries → attemptOk (outcomes i) = false) :
    (get_stock_price symbol market period none outcomes rs).upstreamAttempts =
      max_retries ∧
    (get_stock_price symbol market period none outcomes rs).payload.data_source =
      "fallback_demo" := by
  have hl := fetch_loop_exhausted outcomes
    (hfail 0 (by norm_num [max_retries])) (hfail 1 (by norm_num [max_retries]))
  unfold get_stock_price
  rw [hl]
  exact ⟨rfl, rfl⟩

/-- Witness for `C1_amended` at a concrete rate-limited input. -/
theorem C1_amended_witness :
    (get_stock_price ("INFY") ("india_nse") ("3mo") none
      (fun _ => AttemptOutcome.httpError 429) constRS).upstreamAttempts =
        max_retries ∧
    (get_stock_price ("INFY") ("india_nse") ("3mo") none
      (fun _ => AttemptOutcome.httpError 429) constRS).payload.data_source =
        "fallback_demo" :=
  C1_amended ("INFY") ("india_nse") ("3mo") (fun _ => AttemptOutcome.httpError 429)
    constRS (fun _ _ => rfl)

/-! ## Claim C3: the three-way vote -/

/-- The vote count of one signal value among the three signals, as the
source computes it (`sum(1 for s in signals if s == v)`). -/
def count_votes (t f s v : String) : ℕ :=
  (([t, f, s]).filter (fun x => x == v)).length

/-- C3, as stated by the spec: the returned confidence always equals
`votes_for_action / 3 * 100`.  False: when the resolved action is
`hold`, the source returns the constant 50, so three hold votes yield
confidence 50, not 100. -/
theorem C3_counterexample :
    resolve_vote ("hold") ("hold") ("hold") = ("hold", 50) ∧
    count_votes ("hold") ("hold") ("hold") ("hold") = 3 ∧
    ¬ ((50 : ℚ) = 3 / 3 * 100) := by
  refine ⟨rfl, rfl, by norm_num⟩

/-- C3 amended: `action = buy` iff at least 2 of the 3 signals are buy,
`action = sell` iff fewer than 2 are buy and at least 2 are sell, else
`hold`; the confidence is `votes / 3 * 100` for buy and sell but the
constant 50 for hold.  The spec's examples hold:
`(buy, buy, hold) → (buy, 66.67)` after rounding, and
`(sell, hold, hold)` and `(buy, sell, hold)` both yield `(hold, 50)`. -/
theorem C3_amended (t f s : String) :
    ((resolve_vote t f s).1 = "buy" ↔ 2 ≤ count_votes t f s ("buy")) ∧
    ((resolve_vote t f s).1 = "sell" ↔
      (count_votes t f s ("buy") < 2 ∧ 2 ≤ count_votes t f s ("sell"))) ∧
    ((resolve_vote t f s).1 = "hold" ↔
      (count_votes t f s ("buy") < 2 ∧ count_votes t f s ("sell") < 2)) ∧
    (2 ≤ count_votes t f s ("buy") →
      resolve_vote t f s = ("buy", ((count_votes t f s ("buy") : ℚ)) / 3 * 100)) ∧
    (count_votes t f s ("buy") < 2 → 2 ≤ count_votes t f s ("sell") →
      resolve_vote t f s = ("sell", ((count_votes t f s ("sell") : ℚ)) / 3 * 100)) ∧
    (count_votes t f s ("buy") < 2 → count_votes t f s ("sell") < 2 →
      resolve_vote t f s = ("hold", 50)) ∧
    round2 (resolve_vote ("buy") ("buy") ("hold")).2 = 6667 / 100 ∧
    resolve_vote ("sell") ("hold") ("hold") = ("hold", 50) ∧
    resolve_vote ("buy") ("sell") ("hold") = ("hold", 50) := by
  have hex : round2 (resolve_vote ("buy") ("buy") ("hold")).2 = 6667 / 100 := by
    have hv : (resolve_vote ("buy") ("buy") ("hold")).2 = ((2 : ℕ) : ℚ) / 3 * 100 := rfl
    rw [hv]
    unfold round2
    have hfl : ⌊(100 : ℚ) * (((2 : ℕ) : ℚ) / 3 * 100) + 1 / 2⌋ = 6667 := by
      rw [Int.floor_eq_iff]
      push_cast
      norm_num
    rw [hfl]
    norm_num
  have e : resolve_vote t f s =
      (if 2 ≤ count_votes t f s ("buy") then
        ("buy", ((count_votes t f s ("buy") : ℚ)) / 3 * 100)
      else if 2 ≤ count_votes t f s ("sell") then
        ("sell", ((count_votes t f s ("sell") : ℚ)) / 3 * 100)
      else ("hold", 50)) := rfl
  refine ⟨?_, ?_, ?_, ?_, ?_, ?_, hex, rfl, rfl⟩ <;>
    by_cases hb : 2 ≤ count_votes t f s ("buy") <;>
      by_cases hs : 2 ≤ count_votes t f s ("sell") <;>
        simp [e, hb, hs] <;> omega

/-- Witness for `C3_amended` at `(buy, hold, buy)`: two buy votes
resolve to a buy with confidence `2/3 * 100`. -/
theorem C3_amended_witness :
    2 ≤ count_votes ("buy") ("hold") ("buy") ("buy") ∧
    resolve_vote ("buy") ("hold") ("buy") =
      ("buy", ((count_votes ("buy") ("hold") ("buy") ("buy") : ℚ)) / 3 * 100) :=
  ⟨by decide, ((C3_amended ("buy") ("hold") ("buy")).2.2.2.1) (by decide)⟩

/-! ## Claim C9: the fundamental stage can never cast a vote -/

/-- With the fundamental signal pinned to `"hold"`, the vote resolves to
buy/sell exactly when both remaining signals agree on it. -/
theorem resolve_vote_fund_hold (t s : String) :
    ((resolve_vote t ("hold") s).1 = "buy" ↔ (t = "buy" ∧ s = "buy")) ∧
    ((resolve_vote t ("hold") s).1 = "sell" ↔ (t = "sell" ∧ s = "sell")) := by
  by_cases h1 : t = "buy" <;> by_cases h2 : s = "buy" <;>
    by_cases h3 : t = "sell" <;> by_cases h4 : s = "sell" <;>
      simp_all [resolve_vote]

/-- C9: `_extract_fundamental_signal` returns `"hold"` on every input,
so the synthesizer's action is `buy` iff both the technical and the
sentiment signal are `buy`, and `sell` iff both are `sell`. -/
theorem C9_fundamental_always_hold :
    (∀ analysis : SynthAnalysis, extract_fundamental_signal analysis = "hold") ∧
    (∀ tech fund sent : SynthAnalysis,
      ((synthesize tech fund sent).action = "buy" ↔
        (extract_technical_signal tech = "buy" ∧
          extract_sentiment_signal sent = "buy")) ∧
      ((synthesize tech fund sent).action = "sell" ↔
        (extract_technical_signal tech = "sell" ∧
          extract_sentiment_signal sent = "sell"))) := by
  have hfund : ∀ analysis : SynthAnalysis,
      extract_fundamental_signal analysis = "hold" := by
    intro analysis
    unfold extract_fundamental_signal
    split <;> rfl
  refine ⟨hfund, ?_⟩
  intro tech fund sent
  have hact : (synthesize tech fund sent).action =
      (resolve_vote (extract_technical_signal tech) ("hold")
        (extract_sentiment_signal sent)).1 := by
    unfold synthesize
    rw [hfund fund]
  rw [hact]
  exact resolve_vote_fund_hold (extract_technical_signal tech)
    (extract_sentiment_signal sent)

/-! ## Claim C10: the momentum component is dead code -/

/-- C10: every payload the fetcher builds stores its series under
`"historical_data"` and has no `"historical_prices"` key, so the
scorer's momentum block always sees the empty default list and
contributes exactly 0 points: the composite score reduces to the other
four components (capped at 100). -/
theorem C10_momentum_zero :
    (∀ p : PricePayload,
      p.getKey ("historical_prices") = none ∧
      p.getKey ("historical_data") = some (.bars p.historical_data) ∧
      momentum_points p = 0) ∧
    (∀ (final_rec : FinalRec) (tech_analysis : Option TechAnalysis)
        (fund_analysis : Option FundAnalysis) (sent_analysis : SentAnalysis)
        (price_data : PricePayload),
      calculate_recommendation_score final_rec tech_analysis fund_analysis
          sent_analysis price_data =
        min (base_points final_rec (using_fallback fund_analysis price_data) +
          tech_points tech_analysis (using_fallback fund_analysis price_data) +
          fund_points fund_analysis + sent_points sent_analysis) 100) := by
  have hnone : ∀ p : PricePayload, p.getKey ("historical_prices") = none := by
    intro p
    rfl
  have hmem : ∀ p : PricePayload, momentum_points p = 0 := by
    intro p
    unfold momentum_points historical_prices_value
    rw [hnone p]
    simp
  refine ⟨fun p => ⟨hnone p, rfl, hmem p⟩, ?_⟩
  intro final_rec tech_analysis fund_analysis sent_analysis price_data
  unfold calculate_recommendation_score
  rw [hmem price_data]
  simp

/-! ## Claim C6: the score filter and the fallback threshold -/

/-- The payload the fetcher returns when every attempt is rate-limited
(a concrete fallback payload). -/
def c6_fallback_payload : PricePayload :=
  (get_stock_price ("TCS") ("india_nse") ("3mo") none
    (fun _ => AttemptOutcome.httpError 429) constRS).payload

/-- C6 evaluated on the code: (a) on a cache miss the fetcher only ever
tags payloads `"yahoo_finance"` or `"fallback_demo"` — never the
`"fallback"` value the service's threshold check compares against; (b)
hence for fallback price data (fundamental side non-fallback) the
threshold stays 50 instead of dropping to 30, and an instrument scoring
40 on fallback price data is dropped, against the claim. -/
theorem C6_code_behavior :
    (∀ (symbol market period : String) (outcomes : ℕ → AttemptOutcome)
        (rs : RandomStream),
      (get_stock_price symbol market period none outcomes rs).payload.data_source =
          "yahoo_finance" ∨
      (get_stock_price symbol market period none outcomes rs).payload.data_source =
          "fallback_demo") ∧
    c6_fallback_payload.data_source = "fallback_demo" ∧
    using_fallback none c6_fallback_payload = false ∧
    min_score_of (using_fallback none c6_fallback_payload) = 50 ∧
    dropped_by_score_filter 40 none c6_fallback_payload = true ∧
    min_score_of true = 30 ∧
    ¬ ((40 : ℚ) < 30) := by
  refine ⟨?_, rfl, rfl, rfl, ?_, rfl, by norm_num⟩
  case refine_2 =>
    unfold dropped_by_score_filter
    rw [show using_fallback none c6_fallback_payload = false from rfl]
    norm_num [min_score_of]
  intro symbol market period outcomes rs
  unfold get_stock_price
  rcases hq : fetch_loop outcomes 0 max_retries with ⟨res, used⟩
  cases res with
  | some v =>
    rcases v with ⟨hist, cp, pc⟩
    left
    simp [hq, live_payload]
  | none =>
    right
    simp [hq, generate_fallback_data]

/-! ## Claim C8: the degraded cache -/

/-- A one-entry degraded cache holding a key that matches the
`stock_price:` prefix. -/
def c8_cache : FallbackCache ℕ := [("stock_price:TCS:india_nse:3mo", 7)]

/-- C8, as stated by the spec: in degraded mode `deleteByPrefix` removes
all keys matching the pattern and returns their number.  False: in the
source, `clear_pattern`'s body only touches the store when
`self.available`, so in degraded mode it removes nothing and returns 0
— here one key matches the pattern yet survives, and 0 ≠ 1. -/
theorem C8_counterexample :
    (fc_clear_pattern c8_cache ("stock_price:*")).2 = 0 ∧
    (fc_clear_pattern c8_cache ("stock_price:*")).1 = c8_cache ∧
    matchesPfx ("stock_price:TCS:india_nse:3mo") ("stock_price:") = true ∧
    fc_get (fc_clear_pattern c8_cache ("stock_price:*")).1
      ("stock_price:TCS:india_nse:3mo") = some 7 ∧
    ¬ ((0 : ℕ) = 1) := by
  refine ⟨rfl, rfl, by decide, rfl, by norm_num⟩

/-- C8 amended: in degraded mode `get`/`set`/`delete` honor the
key-value contract against the in-process map (with no TTL
enforcement), but `deleteByPrefix` (`clear_pattern`) is a no-op that
removes nothing and returns 0. -/
theorem C8_amended {α : Type} (c : FallbackCache α) (key : String) (value : α)
    (ttl : ℕ) (pattern : String) :
    fc_get (fc_set c key value ttl).1 key = some value ∧
    (fc_set c key value ttl).2 = true ∧
    (∀ k2, k2 ≠ key → fc_get (fc_set c key value ttl).1 k2 = fc_get c k2) ∧
    fc_get (fc_delete c key).1 key = none ∧
    (fc_delete c key).2 = true ∧
    fc_clear_pattern c pattern = (c, 0) := by
  have hfilter : ∀ (l : FallbackCache α) (k2 : String), k2 ≠ key →
      (l.filter (fun e => !(e.1 == key))).find? (fun e => e.1 == k2) =
        l.find? (fun e => e.1 == k2) := by
    intro l k2 hne
    induction l with
    | nil => rfl
    | cons e rest ih =>
      by_cases hek : e.1 = key
      · have h1 : (e.1 == key) = true := by simp [hek]
        have h2 : (e.1 == k2) = false := by
          simp [hek]
          intro hk
          exact hne hk.symm
        simp [List.filter_cons, List.find?_cons, h1, h2, ih]
      · have h1 : (e.1 == key) = false := by simp [hek]
        cases h2 : (e.1 == k2) with
        | true => simp [List.filter_cons, List.find?_cons, h1, h2]
        | false => simp [List.filter_cons, List.find?_cons, h1, h2, ih]
  refine ⟨?_, rfl, ?_, ?_, rfl, rfl⟩
  · unfold fc_get fc_set
    simp [List.find?_cons]
  · intro k2 hne
    unfold fc_get fc_set
    have hk : (key == k2) = false := by
      simp
      intro hk
      exact hne hk.symm
    simp only [List.find?_cons, hk]
    rw [hfilter c k2 hne]
  · unfold fc_get fc_delete
    rw [List.find?_eq_none.mpr]
    · rfl
    · intro e he
      have := List.of_mem_filter he
      simp at this ⊢
      intro h
      exact absurd h this

/-- Witness for `C8_amended` on the concrete degraded cache. -/
theorem C8_amended_witness :
    fc_get (fc_set c8_cache ("k") (2 : ℕ) 0).1 ("stock_price:TCS:india_nse:3mo") =
      fc_get c8_cache ("stock_price:TCS:india_nse:3mo") ∧
    fc_get (fc_set c8_cache ("k") (2 : ℕ) 0).1 ("k") = some 2 :=
  ⟨(C8_amended c8_cache ("k") 2 0 ("p")).2.2.1
      ("stock_price:TCS:india_nse:3mo") (by decide),
    (C8_amended c8_cache ("k") 2 0 ("p")).1⟩

/-! ## Claim C5: does the oracle path preserve the composite score? -/

/-- C5, as stated by the spec: the ranker may attach `rank` and re-rank
fields but never alters `score`.  False: the merge loop sets
`score := ai_stock.get("enhanced_score", old score)`, so whenever the
oracle supplies an `enhanced_score` the stamped composite score is
overwritten (here 80 becomes 95). -/
theorem C5_counterexample :
    (merge_ai_rankings
      [{ symbol := "A", score := some 80 }]
      [{ symbol := "A", enhanced_score := some 95, rank := some 1 }] 5).map
        (fun e => (e.symbol, e.score)) = [("A", some 95)] ∧
    ¬ ((some (95 : ℚ) : Option ℚ) = some 80) := by
  refine ⟨rfl, by simp⟩

/-- C5 amended: every entry of the oracle-path output is the merge of a
matching input result with an oracle ranking entry; its `score` is the
oracle's `enhanced_score` when present, and only when the oracle omits
`enhanced_score` does the stamped composite score survive. -/
theorem C5_amended (valid_results : List ValidResult)
    (ai_ranked : List AiRankedStock) (limit : ℕ) (e : ValidResult)
    (he : e ∈ merge_ai_rankings valid_results ai_ranked limit) :
    ∃ ai_stock ∈ ai_ranked, ∃ base ∈ valid_results,
      base.symbol = ai_stock.symbol ∧
      e = merge_ai_stock base ai_stock ∧
      e.score = some (ai_stock.enhanced_score.getD (base.score.getD 0)) ∧
      e.rank = some (ai_stock.rank.getD 999) ∧
      (ai_stock.enhanced_score = none → e.score = some (base.score.getD 0)) := by
  unfold merge_ai_rankings at he
  have h1 := List.take_subset _ _ he
  have h2 := (perm_sortAscN (fun x : ValidResult => x.rank.getD 999) _).mem_iff.mp h1
  rcases List.mem_filterMap.mp h2 with ⟨ai_stock, hai, hmap⟩
  rcases Option.map_eq_some'.mp hmap with ⟨base, hfind, hmerge⟩
  have hbmem : base ∈ valid_results := by
    unfold result_map at hfind
    exact List.mem_reverse.mp (List.mem_of_find?_eq_some hfind)
  have hsym : base.symbol = ai_stock.symbol := by
    have := List.find?_some hfind
    simpa using this
  refine ⟨ai_stock, hai, base, hbmem, hsym, hmerge.symm, ?_, ?_, ?_⟩
  · rw [← hmerge]
    rfl
  · rw [← hmerge]
    rfl
  · intro hnone
    rw [← hmerge]
    simp [merge_ai_stock, hnone]

/-- The concrete base result and oracle entry used to witness
`C5_amended`. -/
def c5_base : ValidResult := { symbol := "A", score := some 80 }

def c5_ai : AiRankedStock := { symbol := "A", enhanced_score := some 95, rank := some 1 }

/-- Witness for `C5_amended` on a one-element merge. -/
theorem C5_amended_witness :
    ∃ ai_stock ∈ [c5_ai], ∃ base ∈ [c5_base],
      base.symbol = ai_stock.symbol ∧
      merge_ai_stock c5_base c5_ai = merge_ai_stock base ai_stock ∧
      (merge_ai_stock c5_base c5_ai).score =
        some (ai_stock.enhanced_score.getD (base.score.getD 0)) ∧
      (merge_ai_stock c5_base c5_ai).rank = some (ai_stock.rank.getD 999) ∧
      (ai_stock.enhanced_score = none →
        (merge_ai_stock c5_base c5_ai).score = some (base.score.getD 0)) :=
  C5_amended [c5_base] [c5_ai] 5 (merge_ai_stock c5_base c5_ai) (by decide)

/-! ## Claim C7: no stage failure aborts the pipeline -/

/-- The vote always resolves to one of the three actions. -/
theorem resolve_vote_action_cases (t f s : String) :
    (resolve_vote t f s).1 = "buy" ∨ (resolve_vote t f s).1 = "sell" ∨
    (resolve_vote t f s).1 = "hold" := by
  unfold resolve_vote
  simp only []
  split_ifs <;> simp

/-- C7: for every combination of stage outcomes with at least one stage
failing, each node still records a result (the error dictionary for a
failed stage), and the recommendation node still produces a final
recommendation whose action is one of buy/sell/hold. -/
theorem C7_pipeline_non_abort (techO fundO sentO : StageOutcome)
    (_hfail : techO.failed = true ∨ fundO.failed = true ∨ sentO.failed = true) :
    (run_pipeline techO fundO sentO).tech_analysis =
      some (stage_node_result techO) ∧
    (run_pipeline techO fundO sentO).fund_analysis =
      some (stage_node_result fundO) ∧
    (run_pipeline techO fundO sentO).sent_analysis =
      some (stage_node_result sentO) ∧
    (∀ e, stage_node_result (StageOutcome.fail e) =
      { present := true, error := some e }) ∧
    (∃ r, (run_pipeline techO fundO sentO).final_recommendation = some r ∧
      (r.action = "buy" ∨ r.action = "sell" ∨ r.action = "hold")) := by
  refine ⟨rfl, rfl, rfl, fun e => rfl, ?_⟩
  refine ⟨synthesize (stage_node_result techO) (stage_node_result fundO)
    (stage_node_result sentO), rfl, ?_⟩
  exact resolve_vote_action_cases _ _ _

/-- Witness for `C7_pipeline_non_abort`: all three stages fail, and the
pipeline still yields a buy/sell/hold action. -/
theorem C7_pipeline_non_abort_witness :
    (run_pipeline (StageOutcome.fail ("boom-tech")) (StageOutcome.fail ("boom-fund"))
        (StageOutcome.fail ("boom-sent"))).tech_analysis =
      some (stage_node_result (StageOutcome.fail ("boom-tech"))) ∧
    (run_pipeline (StageOutcome.fail ("boom-tech")) (StageOutcome.fail ("boom-fund"))
        (StageOutcome.fail ("boom-sent"))).fund_analysis =
      some (stage_node_result (StageOutcome.fail ("boom-fund"))) ∧
    (run_pipeline (StageOutcome.fail ("boom-tech")) (StageOutcome.fail ("boom-fund"))
        (StageOutcome.fail ("boom-sent"))).sent_analysis =
      some (stage_node_result (StageOutcome.fail ("boom-sent"))) ∧
    (∀ e, stage_node_result (StageOutcome.fail e) =
      { present := true, error := some e }) ∧
    (∃ r, (run_pipeline (StageOutcome.fail ("boom-tech"))
        (StageOutcome.fail ("boom-fund"))
        (StageOutcome.fail ("boom-sent"))).final_recommendation = some r ∧
      (r.action = "buy" ∨ r.action = "sell" ∨ r.action = "hold")) :=
  C7_pipeline_non_abort (StageOutcome.fail ("boom-tech"))
    (StageOutcome.fail ("boom-fund")) (StageOutcome.fail ("boom-sent")) (Or.inl rfl)

/-! ## Claim C2: the deterministic fallback ranking -/

theorem length_insertDescQ {α : Type} (key : α → ℚ) (x : α) (l : List α) :
    (insertDescQ key x l).length = l.length + 1 := by
  induction l with
  | nil => rfl
  | cons y ys ih => by_cases h : key x < key y <;> simp [insertDescQ, h, ih]

theorem length_sortDescQ {α : Type} (key : α → ℚ) (l : List α) :
    (sortDescQ key l).length = l.length := by
  induction l with
  | nil => rfl
  | cons x xs ih => simp [sortDescQ, length_insertDescQ, ih]

theorem assign_ranks_length (l : List StockAnalysis) : ∀ i,
    (assign_ranks i l).length = l.length := by
  induction l with
  | nil => intro i; rfl
  | cons a rest ih => intro i; simp [assign_ranks, ih]

theorem assign_ranks_map_rank (l : List StockAnalysis) : ∀ i,
    (assign_ranks i l).map (fun a => a.rank) =
      (List.range l.length).map (fun j => some (i + j + 1)) := by
  induction l with
  | nil => intro i; rfl
  | cons a rest ih =>
    intro i
    simp only [assign_ranks, List.map_cons, List.length_cons,
      List.range_succ_eq_map, List.map_map]
    congr 1
    rw [ih (i + 1)]
    apply List.map_congr_left
    intro j _
    simp only [Function.comp_apply, Option.some.injEq]
    omega

theorem assign_ranks_map_symbol (l : List StockAnalysis) : ∀ i,
    (assign_ranks i l).map (fun a => a.symbol) = l.map (fun a => a.symbol) := by
  induction l with
  | nil => intro i; rfl
  | cons a rest ih => intro i; simp [assign_ranks, ih]

theorem assign_ranks_map_es (l : List StockAnalysis) : ∀ i,
    (assign_ranks i l).map (fun a => a.enhanced_score) =
      l.map (fun a => a.enhanced_score) := by
  induction l with
  | nil => intro i; rfl
  | cons a rest ih => intro i; simp [assign_ranks, ih]

theorem mem_assign_ranks {l : List StockAnalysis} {a : StockAnalysis} : ∀ {i},
    a ∈ assign_ranks i l →
    ∃ b ∈ l, a.symbol = b.symbol ∧ a.enhanced_score = b.enhanced_score := by
  induction l with
  | nil =>
    intro i h
    cases h
  | cons x rest ih =>
    intro i h
    rcases List.mem_cons.mp h with rfl | h
    · exact ⟨x, List.mem_cons_self x rest, rfl, rfl⟩
    · rcases ih h with ⟨b, hb, h1, h2⟩
      exact ⟨b, List.mem_cons_of_mem x hb, h1, h2⟩

theorem assign_ranks_filter_symbol (q : ℚ) (l : List StockAnalysis) : ∀ i,
    ((assign_ranks i l).filter (fun a => a.enhanced_score.getD 0 == q)).map
      (fun a => a.symbol) =
    (l.filter (fun a => a.enhanced_score.getD 0 == q)).map (fun a => a.symbol) := by
  induction l with
  | nil => intro i; rfl
  | cons a rest ih =>
    intro i
    simp only [assign_ranks, List.filter_cons]
    cases hp : (a.enhanced_score.getD 0 == q) with
    | true => simp [hp, ih]
    | false => simp [hp, ih]

/-- C2, as stated by the spec: the fallback RankedList is ordered by the
instruments' composite `score` descending.  False: `_fallback_ranking`
orders by a freshly derived confidence-based score and ignores the
stamped composite `score`: here instrument A (composite 80, hold at
confidence 40) is ranked below B (composite 60, buy at confidence 90),
so rank 1 carries the smaller composite score. -/
theorem C2_counterexample :
    (fallback_ranking [
      { symbol := "A", score := some 80,
        final_recommendation := some { action := some ("hold"), confidence := some 40 } },
      { symbol := "B", score := some 60,
        final_recommendation := some { action := some ("buy"), confidence := some 90 } }
    ]).map (fun a => (a.symbol, a.score, a.rank)) =
      [("B", some 60, some 1), ("A", some 80, some 2)] ∧
    ¬ ((80 : ℚ) ≤ 60) := by
  refine ⟨?_, by norm_num⟩
  norm_num [fallback_ranking, fallback_annotate, fallback_score, sortDescQ,
    insertDescQ, assign_ranks]

/-- C2 amended: when the oracle fails, `_fallback_ranking` returns
exactly N entries (the input instruments, one output entry per input),
ranks 1..N in list order with no duplicates, ordered descending — and
stably, preserving insertion order on ties — by the derived fallback
score (`confidence` for a buy recommendation, `confidence/2` for hold,
0 otherwise), not by the composite `score` field. -/
theorem C2_amended (stock_analyses : List StockAnalysis) :
    (fallback_ranking stock_analyses).length = stock_analyses.length ∧
    (fallback_ranking stock_analyses).map (fun a => a.rank) =
      (List.range stock_analyses.length).map (fun j => some (j + 1)) ∧
    List.Perm ((fallback_ranking stock_analyses).map (fun a => a.symbol))
      (stock_analyses.map (fun a => a.symbol)) ∧
    List.Pairwise (fun a b => b.enhanced_score.getD 0 ≤ a.enhanced_score.getD 0)
      (fallback_ranking stock_analyses) ∧
    (∀ a ∈ fallback_ranking stock_analyses, ∃ b ∈ stock_analyses,
      a.symbol = b.symbol ∧ a.enhanced_score = some (fallback_score b)) ∧
    (∀ q : ℚ, ((fallback_ranking stock_analyses).filter
        (fun a => a.enhanced_score.getD 0 == q)).map (fun a => a.symbol) =
      ((stock_analyses.map fallback_annotate).filter
        (fun a => a.enhanced_score.getD 0 == q)).map (fun a => a.symbol)) := by
  have hdef : fallback_ranking stock_analyses =
      assign_ranks 0 (sortDescQ (fun a => a.enhanced_score.getD 0)
        (stock_analyses.map fallback_annotate)) := rfl
  have hperm : List.Perm (sortDescQ (fun a => a.enhanced_score.getD 0)
      (stock_analyses.map fallback_annotate))
      (stock_analyses.map fallback_annotate) :=
    perm_sortDescQ _ _
  have hlen : (sortDescQ (fun a => a.enhanced_score.getD 0)
      (stock_analyses.map fallback_annotate)).length = stock_analyses.length := by
    rw [length_sortDescQ, List.length_map]
  refine ⟨?_, ?_, ?_, ?_, ?_, ?_⟩
  · rw [hdef, assign_ranks_length, hlen]
  · rw [hdef, assign_ranks_map_rank, hlen]
    apply List.map_congr_left
    intro j _
    simp only [Option.some.injEq]
    omega
  · rw [hdef, assign_ranks_map_symbol]
    have h1 : List.Perm ((sortDescQ (fun a => a.enhanced_score.getD 0)
        (stock_analyses.map fallback_annotate)).map (fun a => a.symbol))
        ((stock_analyses.map fallback_annotate).map (fun a => a.symbol)) :=
      hperm.map _
    have h2 : (stock_analyses.map fallback_annotate).map (fun a => a.symbol) =
        stock_analyses.map (fun a => a.symbol) := by
      rw [List.map_map]
      apply List.map_congr_left
      intro a _
      rfl
    rw [h2] at h1
    exact h1
  · rw [hdef]
    have hs := pairwise_sortDescQ (fun a : StockAnalysis => a.enhanced_score.getD 0)
      (stock_analyses.map fallback_annotate)
    have h1 : List.Pairwise
        (fun x y : Option ℚ => y.getD 0 ≤ x.getD 0)
        ((assign_ranks 0 (sortDescQ (fun a => a.enhanced_score.getD 0)
          (stock_analyses.map fallback_annotate))).map
            (fun a => a.enhanced_score)) := by
      rw [assign_ranks_map_es]
      exact List.pairwise_map.mpr hs
    exact List.pairwise_map.mp h1
  · intro a ha
    rw [hdef] at ha
    rcases mem_assign_ranks ha with ⟨b', hb', hsym, hes⟩
    have hb'' := hperm.mem_iff.mp hb'
    rcases List.mem_map.mp hb'' with ⟨b, hb, rfl⟩
    exact ⟨b, hb, hsym, hes⟩
  · intro q
    rw [hdef, assign_ranks_filter_symbol,
      filter_sortDescQ (fun a : StockAnalysis => a.enhanced_score.getD 0)
        (stock_analyses.map fallback_annotate) q]

/-! ## Claim C4: the fallback payload invariant -/

/-- With daily changes within ±2%, every intermediate price stays
positive. -/
theorem current_after_pos (dc : ℕ → ℚ)
    (hdc : ∀ i, -(2 / 100 : ℚ) ≤ dc i ∧ dc i ≤ 2 / 100) :
    ∀ i, 0 < current_after dc i := by
  intro i
  induction i with
  | zero =>
    have h := (hdc 0).1
    unfold current_after base_price
    nlinarith
  | succ n ih =>
    have h := (hdc (n + 1)).1
    unfold current_after
    nlinarith

/-- Every generated bar keeps the OHLC ordering, rounding included. -/
theorem fallback_bar_ohlc (rs : RandomStream)
    (hdc : ∀ i, -(2 / 100 : ℚ) ≤ rs.daily_change i ∧ rs.daily_change i ≤ 2 / 100)
    (hof : ∀ i, (98 / 100 : ℚ) ≤ rs.open_factor i ∧ rs.open_factor i ≤ 102 / 100)
    (hhf : ∀ i, (1 : ℚ) ≤ rs.high_factor i ∧ rs.high_factor i ≤ 102 / 100)
    (hlf : ∀ i, (98 / 100 : ℚ) ≤ rs.low_factor i ∧ rs.low_factor i ≤ 1) (i : ℕ) :
    (fallback_bar rs i).low ≤
      min (fallback_bar rs i).open_ (fallback_bar rs i).close ∧
    max (fallback_bar rs i).open_ (fallback_bar rs i).close ≤
      (fallback_bar rs i).high := by
  have hcur : 0 < current_after rs.daily_change i := current_after_pos _ hdc i
  have hop : 0 < current_after rs.daily_change i * rs.open_factor i := by
    have := (hof i).1
    nlinarith
  have hminpos : 0 < min (current_after rs.daily_change i * rs.open_factor i)
      (current_after rs.daily_change i) := lt_min hop hcur
  have hmaxpos : 0 < max (current_after rs.daily_change i * rs.open_factor i)
      (current_after rs.daily_change i) :=
    lt_of_lt_of_le hcur (le_max_right _ _)
  have hlo : min (current_after rs.daily_change i * rs.open_factor i)
        (current_after rs.daily_change i) * rs.low_factor i ≤
      min (current_after rs.daily_change i * rs.open_factor i)
        (current_after rs.daily_change i) := by
    have := (hlf i).2
    nlinarith
  have hhi : max (current_after rs.daily_change i * rs.open_factor i)
        (current_after rs.daily_change i) ≤
      max (current_after rs.daily_change i * rs.open_factor i)
        (current_after rs.daily_change i) * rs.high_factor i := by
    have := (hhf i).1
    nlinarith
  constructor
  · exact le_min
      (round2_mono (le_trans hlo (min_le_left _ _)))
      (round2_mono (le_trans hlo (min_le_right _ _)))
  · exact max_le
      (round2_mono (le_trans (le_max_left _ _) hhi))
      (round2_mono (le_trans (le_max_right _ _) hhi))

/-- C4: when every upstream attempt fails, `get_stock_price` returns a
payload tagged `"fallback_demo"` in which every generated bar satisfies
`low ≤ min(open, close)` and `max(open, close) ≤ high` after rounding,
and caches it under the 900-second fallback TTL — strictly shorter than
the 3600-second live TTL a successful fetch of the same key uses. -/
theorem C4_fallback_invariant (symbol market period : String)
    (outcomes : ℕ → AttemptOutcome) (rs : RandomStream)
    (hdc : ∀ i, -(2 / 100 : ℚ) ≤ rs.daily_change i ∧ rs.daily_change i ≤ 2 / 100)
    (hof : ∀ i, (98 / 100 : ℚ) ≤ rs.open_factor i ∧ rs.open_factor i ≤ 102 / 100)
    (hhf : ∀ i, (1 : ℚ) ≤ rs.high_factor i ∧ rs.high_factor i ≤ 102 / 100)
    (hlf : ∀ i, (98 / 100 : ℚ) ≤ rs.low_factor i ∧ rs.low_factor i ≤ 1)
    (hfail : ∀ i, i < max_retries → attemptOk (outcomes i) = false) :
    (get_stock_price symbol market period none outcomes rs).payload.data_source =
      "fallback_demo" ∧
    (∀ bar ∈ (get_stock_price symbol market period none outcomes
        rs).payload.historical_data,
      bar.low ≤ min bar.open_ bar.close ∧ max bar.open_ bar.close ≤ bar.high) ∧
    (get_stock_price symbol market period none outcomes rs).cacheWrites =
      [("stock_price:" ++ symbol ++ ":" ++ market ++ ":" ++ period,
        (get_stock_price symbol market period none outcomes rs).payload, 900)] ∧
    (∀ (outcomes2 : ℕ → AttemptOutcome) (hist : List Bar) (cp pc : Option ℚ),
      outcomes2 0 = AttemptOutcome.ok hist cp pc → hist ≠ [] →
      (get_stock_price symbol market period none outcomes2 rs).cacheWrites =
        [("stock_price:" ++ symbol ++ ":" ++ market ++ ":" ++ period,
          (get_stock_price symbol market period none outcomes2 rs).payload, 3600)]) ∧
    (900 : ℕ) < 3600 := by
  have hl := fetch_loop_exhausted outcomes
    (hfail 0 (by norm_num [max_retries])) (hfail 1 (by norm_num [max_retries]))
  have hpay : (get_stock_price symbol market period none outcomes rs).payload =
      generate_fallback_data symbol period rs := by
    unfold get_stock_price
    rw [hl]
  have hwrites : (get_stock_price symbol market period none outcomes rs).cacheWrites =
      [("stock_price:" ++ symbol ++ ":" ++ market ++ ":" ++ period,
        generate_fallback_data symbol period rs, 900)] := by
    unfold get_stock_price
    rw [hl]
  refine ⟨?_, ?_, ?_, ?_, by norm_num⟩
  · rw [hpay]
    rfl
  · rw [hpay]
    intro bar hbar
    have hmem : bar ∈ (List.range (days_for_period period)).map (fallback_bar rs) :=
      hbar
    rcases List.mem_map.mp hmem with ⟨i, _, rfl⟩
    exact fallback_bar_ohlc rs hdc hof hhf hlf i
  · rw [hwrites, hpay]
  · intro outcomes2 hist cp pc h0 hne
    have hsucc := fetch_loop_first_success outcomes2 hist cp pc h0 hne
    unfold get_stock_price
    rw [hsucc]

/-- Witness for `C4_fallback_invariant`: the constant stream draws lie
inside the `random.uniform` bounds, and every attempt is rate-limited. -/
theorem C4_fallback_invariant_witness :
    (get_stock_price ("HDFCBANK") ("india_nse") ("3mo") none
      (fun _ => AttemptOutcome.httpError 429) constRS).payload.data_source =
      "fallback_demo" ∧
    (∀ bar ∈ (get_stock_price ("HDFCBANK") ("india_nse") ("3mo") none
        (fun _ => AttemptOutcome.httpError 429) constRS).payload.historical_data,
      bar.low ≤ min bar.open_ bar.close ∧ max bar.open_ bar.close ≤ bar.high) :=
  let h := C4_fallback_invariant ("HDFCBANK") ("india_nse") ("3mo")
    (fun _ => AttemptOutcome.httpError 429) constRS
    (fun _ => by norm_num [constRS])
    (fun _ => by norm_num [constRS])
    (fun _ => by norm_num [constRS])
    (fun _ => by norm_num [constRS])
    (fun _ _ => rfl)
  ⟨h.1, h.2.1⟩

/-- A concrete instrument for the `C2_amended` witness. -/
def c2w : StockAnalysis :=
  { symbol := "W", score := some 10,
    final_recommendation := some { action := some ("buy"), confidence := some 70 } }

/-- The entry `_fallback_ranking` produces for `c2w`. -/
def c2w_ranked : StockAnalysis :=
  { c2w with
    enhanced_score := some 70,
    ai_reasoning := some ("Based on recommendation"),
    rank := some 1 }

/-- Witness for `C2_amended`: on a one-element input, the single ranked
entry carries the input's symbol and its derived fallback score. -/
theorem C2_amended_witness :
    ∃ b ∈ [c2w], c2w_ranked.symbol = b.symbol ∧
      c2w_ranked.enhanced_score = some (fallback_score b) :=
  (C2_amended [c2w]).2.2.2.2.1 c2w_ranked (by decide)
